import Mathlib

/-!
Verification of the render-lifecycle controller of the studio repository.

The development shallowly embeds the code of
`src/frontend/src/components/manuscript/ManuscriptWrapper.vue` (the
`executeRender` coroutine, its guards, its watcher environment and the
`manuscriptKey` mechanism) and of the `useHeadInjection` composable
(`injectHeadContent`, its resource deduplication and its aggregate
promise).  Asynchronous code is embedded as a small-step event system:
an invocation of `executeRender` is cut at its suspension points
(`await nextTick()` and the awaited entry point) into atomic segments,
and a trace is a list of events interleaving invocations, resumptions,
promise settlements and environment changes, which is faithful to the
single-threaded cooperative scheduling of the browser.
-/

namespace ManuscriptWrapper

/-- Per component-instance mutable state of ManuscriptWrapper.vue:
`onloadCalled` (ref, line 26), `lastHtmlString` (line 27) and
`executeRenderInProgress` (line 28).  `lastHtmlString` starts as
`null`, embedded as `none`. -/
structure RenderState where
  onloadCalled : Bool
  lastHtmlString : Option String
  executeRenderInProgress : Bool
deriving DecidableEq, Repr

/-- Initial state of a freshly created component instance. -/
def RenderState.init : RenderState :=
  { onloadCalled := false, lastHtmlString := none, executeRenderInProgress := false }

/-- The reactive environment read by `executeRender`: the current value
of `props.htmlString`, and whether `selfRef.value`, `onload.value` and
`onrender.value` are non-null.  In JS `!props.htmlString` is true
exactly when the string is empty, embedded as equality with `""`. -/
structure Env where
  htmlString : String
  selfRefPresent : Bool
  onloadPresent : Bool
  onrenderPresent : Bool
deriving DecidableEq, Repr

/-- Which entry point the branch at lines 80-93 selects: the full
initialization `onload`, the incremental `onrender`, or neither (when
`onloadCalled` is true but `onrender.value` is null). -/
inductive EntryChoice
  | callOnload
  | callOnrender
  | noCall
deriving DecidableEq, Repr

/-- A suspended invocation of `executeRender`: parked at
`await nextTick()` (line 72), or awaiting the promise of the chosen
entry point (lines 82 and 90). -/
inductive InFlight
  | atTick
  | awaiting (choice : EntryChoice)
deriving DecidableEq, Repr

/-- The synchronous entry segment of `executeRender` (lines 53-72): the
three guards in source order (in-progress, missing refs or empty
content, identical content), then setting `executeRenderInProgress`
and recording `lastHtmlString` before the first `await`.  Returns the
updated state and whether the invocation suspended at `nextTick`
(`true`) or returned (`false`). -/
def entryStep (env : Env) (s : RenderState) : RenderState × Bool :=
  if s.executeRenderInProgress then (s, false)
  else if env.selfRefPresent = false ∨ env.htmlString = "" ∨ env.onloadPresent = false then
    (s, false)
  else if s.lastHtmlString = some env.htmlString then (s, false)
  else ({ s with executeRenderInProgress := true, lastHtmlString := some env.htmlString }, true)

/-- The branch taken after `nextTick` resolves (lines 80-93): not yet
initialized runs `onload`; otherwise `onrender` when it is non-null;
otherwise neither entry point is invoked. -/
def branchChoice (env : Env) (s : RenderState) : EntryChoice :=
  if s.onloadCalled = false then EntryChoice.callOnload
  else if env.onrenderPresent then EntryChoice.callOnrender
  else EntryChoice.noCall

/-- The segment run when the awaited entry point settles, fused with the
`catch`/`finally` of lines 94-99: a successful `onload` sets
`onloadCalled := true` (line 85); a thrown error is logged and not
rethrown, leaving `onloadCalled` and `lastHtmlString` as they were;
the `finally` clears `executeRenderInProgress` in every case. -/
def settleStep (choice : EntryChoice) (ok : Bool) (s : RenderState) : RenderState :=
  match choice, ok with
  | EntryChoice.callOnload, true =>
      { s with onloadCalled := true, executeRenderInProgress := false }
  | _, _ => { s with executeRenderInProgress := false }

/-- A configuration of the whole component: the reactive environment,
the shared mutable state, and the multiset (list) of suspended
`executeRender` invocations. -/
structure Config where
  env : Env
  state : RenderState
  flights : List InFlight
deriving DecidableEq, Repr

/-- Atomic events of the event loop: a watcher firing invokes
`executeRender` (its entry segment runs synchronously); `tick i`
resumes invocation `i` from `nextTick`, which runs the branch segment
(a `noCall` branch falls through to the `finally` at once); `settle i
ok` delivers the result of the awaited entry point to invocation `i`;
the remaining events are changes of the watched reactive sources. -/
inductive Event
  | fire
  | tick (i : Nat)
  | settle (i : Nat) (ok : Bool)
  | setHtml (h : String)
  | setSelfRef (b : Bool)
  | setOnload (b : Bool)
  | setOnrender (b : Bool)
deriving DecidableEq, Repr

/-- One atomic step of the event system. -/
def step (c : Config) (e : Event) : Config :=
  match e with
  | Event.fire =>
      match entryStep c.env c.state with
      | (s1, true) => { c with state := s1, flights := c.flights ++ [InFlight.atTick] }
      | (s1, false) => { c with state := s1 }
  | Event.tick i =>
      match c.flights[i]? with
      | some InFlight.atTick =>
          match branchChoice c.env c.state with
          | EntryChoice.noCall =>
              { c with state := { c.state with executeRenderInProgress := false },
                       flights := c.flights.eraseIdx i }
          | ch => { c with flights := c.flights.set i (InFlight.awaiting ch) }
      | _ => c
  | Event.settle i ok =>
      match c.flights[i]? with
      | some (InFlight.awaiting ch) =>
          { c with state := settleStep ch ok c.state, flights := c.flights.eraseIdx i }
      | _ => c
  | Event.setHtml h => { c with env := { c.env with htmlString := h } }
  | Event.setSelfRef b => { c with env := { c.env with selfRefPresent := b } }
  | Event.setOnload b => { c with env := { c.env with onloadPresent := b } }
  | Event.setOnrender b => { c with env := { c.env with onrenderPresent := b } }

/-- Run a trace of events. -/
def run (c : Config) (es : List Event) : Config :=
  es.foldl step c

/-- A freshly created component instance in a given environment. -/
def Config.init (env : Env) : Config :=
  { env := env, state := RenderState.init, flights := [] }

/-- Configurations reachable from some fresh instance by some trace. -/
def Reachable (c : Config) : Prop :=
  ∃ env es, run (Config.init env) es = c

/-- The inductive invariant of the event system: at most one invocation
is suspended, the in-progress flag is true exactly while one is, and
once `onloadCalled` is true no suspended invocation awaits `onload`. -/
def Inv (c : Config) : Prop :=
  c.flights.length ≤ 1 ∧
  (c.state.executeRenderInProgress = true ↔ c.flights ≠ []) ∧
  (c.state.onloadCalled = true →
    ∀ f ∈ c.flights, f ≠ InFlight.awaiting EntryChoice.callOnload)

theorem inv_init (env : Env) : Inv (Config.init env) := by
  refine ⟨by simp [Config.init], ?_, ?_⟩
  · simp [Config.init, RenderState.init]
  · intro _ f hf
    simp [Config.init] at hf

theorem entryStep_of_inProgress (env : Env) (s : RenderState)
    (h : s.executeRenderInProgress = true) : entryStep env s = (s, false) := by
  simp [entryStep, h]

theorem entryStep_fst_onloadCalled (env : Env) (s : RenderState) :
    (entryStep env s).1.onloadCalled = s.onloadCalled := by
  by_cases h1 : s.executeRenderInProgress = true
  · simp [entryStep, h1]
  · by_cases h2 : env.selfRefPresent = false ∨ env.htmlString = "" ∨ env.onloadPresent = false
    · simp [entryStep, h1, h2]
    · by_cases h3 : s.lastHtmlString = some env.htmlString
      · simp [entryStep, h1, h2, h3]
      · simp [entryStep, h1, h2, h3]

theorem entryStep_snd_true (env : Env) (s : RenderState)
    (h : (entryStep env s).2 = true) :
    s.executeRenderInProgress = false ∧
    (entryStep env s).1 =
      { s with executeRenderInProgress := true, lastHtmlString := some env.htmlString } := by
  by_cases h1 : s.executeRenderInProgress = true
  · simp [entryStep, h1] at h
  · by_cases h2 : env.selfRefPresent = false ∨ env.htmlString = "" ∨ env.onloadPresent = false
    · simp [entryStep, h1, h2] at h
    · by_cases h3 : s.lastHtmlString = some env.htmlString
      · simp [entryStep, h1, h2, h3] at h
      · exact ⟨by simpa using h1, by simp [entryStep, h1, h2, h3]⟩

theorem entryStep_snd_false (env : Env) (s : RenderState)
    (h : (entryStep env s).2 = false) : (entryStep env s).1 = s := by
  by_cases h1 : s.executeRenderInProgress = true
  · simp [entryStep, h1]
  · by_cases h2 : env.selfRefPresent = false ∨ env.htmlString = "" ∨ env.onloadPresent = false
    · simp [entryStep, h1, h2]
    · by_cases h3 : s.lastHtmlString = some env.htmlString
      · simp [entryStep, h1, h2, h3]
      · simp [entryStep, h1, h2, h3] at h

theorem settleStep_inProgress (choice : EntryChoice) (ok : Bool) (s : RenderState) :
    (settleStep choice ok s).executeRenderInProgress = false := by
  cases choice <;> cases ok <;> rfl

theorem settleStep_of_error (choice : EntryChoice) (s : RenderState) :
    settleStep choice false s = { s with executeRenderInProgress := false } := by
  cases choice <;> rfl

theorem settleStep_lastHtmlString (choice : EntryChoice) (ok : Bool) (s : RenderState) :
    (settleStep choice ok s).lastHtmlString = s.lastHtmlString := by
  cases choice <;> cases ok <;> rfl

theorem branchChoice_of_onloadCalled (env : Env) (s : RenderState)
    (h : s.onloadCalled = true) :
    branchChoice env s ≠ EntryChoice.callOnload := by
  unfold branchChoice
  rw [h]
  by_cases hr : env.onrenderPresent = true <;> simp [hr]

theorem step_fire_suspend (c : Config) (s1 : RenderState)
    (hE : entryStep c.env c.state = (s1, true)) :
    step c Event.fire =
      { c with state := s1, flights := c.flights ++ [InFlight.atTick] } := by
  simp only [step]
  rw [hE]

theorem step_fire_return (c : Config) (s1 : RenderState)
    (hE : entryStep c.env c.state = (s1, false)) :
    step c Event.fire = { c with state := s1 } := by
  simp only [step]
  rw [hE]

theorem step_tick_none (c : Config) (i : Nat) (hF : c.flights[i]? = none) :
    step c (Event.tick i) = c := by
  simp only [step]
  rw [hF]

theorem step_tick_awaiting (c : Config) (i : Nat) (ch : EntryChoice)
    (hF : c.flights[i]? = some (InFlight.awaiting ch)) :
    step c (Event.tick i) = c := by
  simp only [step]
  rw [hF]

theorem step_tick_noCall (c : Config) (i : Nat)
    (hF : c.flights[i]? = some InFlight.atTick)
    (hB : branchChoice c.env c.state = EntryChoice.noCall) :
    step c (Event.tick i) =
      { c with state := { c.state with executeRenderInProgress := false },
               flights := c.flights.eraseIdx i } := by
  simp only [step]
  rw [hF, hB]

theorem step_tick_call (c : Config) (i : Nat) (ch : EntryChoice)
    (hF : c.flights[i]? = some InFlight.atTick)
    (hB : branchChoice c.env c.state = ch) (hch : ch ≠ EntryChoice.noCall) :
    step c (Event.tick i) = { c with flights := c.flights.set i (InFlight.awaiting ch) } := by
  simp only [step]
  rw [hF, hB]
  cases ch with
  | callOnload => rfl
  | callOnrender => rfl
  | noCall => exact absurd rfl hch

theorem step_settle_none (c : Config) (i : Nat) (ok : Bool)
    (hF : c.flights[i]? = none) : step c (Event.settle i ok) = c := by
  simp only [step]
  rw [hF]

theorem step_settle_atTick (c : Config) (i : Nat) (ok : Bool)
    (hF : c.flights[i]? = some InFlight.atTick) : step c (Event.settle i ok) = c := by
  simp only [step]
  rw [hF]

theorem step_settle_awaiting (c : Config) (i : Nat) (ch : EntryChoice) (ok : Bool)
    (hF : c.flights[i]? = some (InFlight.awaiting ch)) :
    step c (Event.settle i ok) =
      { c with state := settleStep ch ok c.state, flights := c.flights.eraseIdx i } := by
  simp only [step]
  rw [hF]

theorem fire_noop_of_inProgress (c : Config)
    (h : c.state.executeRenderInProgress = true) : step c Event.fire = c := by
  rw [step_fire_return c c.state (entryStep_of_inProgress c.env c.state h)]

theorem singleton_getElem (f0 x : InFlight) (i : Nat) (h : [f0][i]? = some x) :
    i = 0 ∧ f0 = x := by
  cases i with
  | zero =>
    refine ⟨rfl, ?_⟩
    simpa using h
  | succ n => simp at h

theorem getElem_some_ne_nil (l : List InFlight) (i : Nat) (x : InFlight)
    (h : l[i]? = some x) : l ≠ [] := by
  intro hn
  rw [hn] at h
  simp at h

theorem list_len_le_one (l : List InFlight) (h : l.length ≤ 1) :
    l = [] ∨ ∃ f, l = [f] := by
  cases l with
  | nil => exact Or.inl rfl
  | cons f t =>
    cases t with
    | nil => exact Or.inr ⟨f, rfl⟩
    | cons g u => simp at h

theorem branchChoice_eq_callOnload (env : Env) (s : RenderState)
    (h : branchChoice env s = EntryChoice.callOnload) : s.onloadCalled = false := by
  by_cases ho : s.onloadCalled = false
  · exact ho
  · exfalso
    unfold branchChoice at h
    rw [if_neg ho] at h
    by_cases hr : env.onrenderPresent = true
    · rw [if_pos hr] at h
      exact EntryChoice.noConfusion h
    · rw [if_neg hr] at h
      exact EntryChoice.noConfusion h

theorem inv_step (c : Config) (e : Event) (h : Inv c) : Inv (step c e) := by
  obtain ⟨env, st, fl⟩ := c
  obtain ⟨hlen, hflag, honl⟩ := h
  simp only at hlen hflag honl
  cases e with
  | fire =>
    cases hE : entryStep env st with
    | mk s1 b =>
      cases b with
      | true =>
        obtain ⟨hip, hs1⟩ := entryStep_snd_true env st (by rw [hE])
        rw [hE] at hs1
        have hnil : fl = [] := by
          by_contra hne
          have h2 := hflag.mpr hne
          rw [hip] at h2
          exact Bool.false_ne_true h2
        subst hnil
        rw [step_fire_suspend ⟨env, st, []⟩ s1 hE]
        subst hs1
        refine ⟨by simp, by simp, ?_⟩
        intro ho f hf
        simp at hf
        subst hf
        simp
      | false =>
        have hs1 : s1 = st := by
          have h1 := entryStep_snd_false env st (by rw [hE])
          rw [hE] at h1
          exact h1
        rw [hs1] at hE
        rw [step_fire_return ⟨env, st, fl⟩ st hE]
        exact ⟨hlen, hflag, honl⟩
  | tick i =>
    cases hF : (Config.mk env st fl).flights[i]? with
    | none =>
      rw [step_tick_none _ i hF]
      exact ⟨hlen, hflag, honl⟩
    | some f =>
      cases f with
      | awaiting ch =>
        rw [step_tick_awaiting _ i ch hF]
        exact ⟨hlen, hflag, honl⟩
      | atTick =>
        rcases list_len_le_one fl hlen with hsh | ⟨f0, hsh⟩
        · exact absurd hsh (getElem_some_ne_nil fl i InFlight.atTick hF)
        · have hi0 : i = 0 ∧ f0 = InFlight.atTick := by
            apply singleton_getElem
            rw [← hsh]
            exact hF
          obtain ⟨hi, hf0⟩ := hi0
          subst hi hf0 hsh
          have hip : st.executeRenderInProgress = true := hflag.mpr (by simp)
          cases hB : branchChoice env st with
          | noCall =>
            rw [step_tick_noCall _ 0 hF hB]
            refine ⟨by simp, by simp [List.eraseIdx], ?_⟩
            intro ho f hf
            simp [List.eraseIdx] at hf
          | callOnload =>
            rw [step_tick_call _ 0 EntryChoice.callOnload hF hB (by simp)]
            have hof : st.onloadCalled = false := branchChoice_eq_callOnload env st hB
            refine ⟨by simp, by simp [hip], ?_⟩
            intro ho f hf
            simp only at ho
            rw [hof] at ho
            exact (Bool.false_ne_true ho).elim
          | callOnrender =>
            rw [step_tick_call _ 0 EntryChoice.callOnrender hF hB (by simp)]
            refine ⟨by simp, by simp [hip], ?_⟩
            intro ho f hf
            simp at hf
            subst hf
            simp
  | settle i ok =>
    cases hF : (Config.mk env st fl).flights[i]? with
    | none =>
      rw [step_settle_none _ i ok hF]
      exact ⟨hlen, hflag, honl⟩
    | some f =>
      cases f with
      | atTick =>
        rw [step_settle_atTick _ i ok hF]
        exact ⟨hlen, hflag, honl⟩
      | awaiting ch =>
        rcases list_len_le_one fl hlen with hsh | ⟨f0, hsh⟩
        · exact absurd hsh (getElem_some_ne_nil fl i (InFlight.awaiting ch) hF)
        · have hi0 : i = 0 ∧ f0 = InFlight.awaiting ch := by
            apply singleton_getElem
            rw [← hsh]
            exact hF
          obtain ⟨hi, hf0⟩ := hi0
          subst hi hf0 hsh
          rw [step_settle_awaiting _ 0 ch ok hF]
          refine ⟨by simp [List.eraseIdx], ?_, ?_⟩
          · simp [List.eraseIdx, settleStep_inProgress]
          · intro ho f hf
            simp [List.eraseIdx] at hf
  | setHtml hstr => exact ⟨hlen, hflag, honl⟩
  | setSelfRef b => exact ⟨hlen, hflag, honl⟩
  | setOnload b => exact ⟨hlen, hflag, honl⟩
  | setOnrender b => exact ⟨hlen, hflag, honl⟩

theorem inv_run (c : Config) (hI : Inv c) (es : List Event) : Inv (run c es) := by
  induction es generalizing c with
  | nil => exact hI
  | cons e es ih => exact ih (step c e) (inv_step c e hI)

theorem reachable_inv (c : Config) (h : Reachable c) : Inv c := by
  obtain ⟨env, es, hrun⟩ := h
  rw [← hrun]
  exact inv_run _ (inv_init env) es

theorem settleStep_onloadCalled_of_error (choice : EntryChoice) (s : RenderState) :
    (settleStep choice false s).onloadCalled = s.onloadCalled := by
  cases choice <;> rfl

theorem length_eraseIdx_le {α : Type} (l : List α) (i : Nat) :
    (l.eraseIdx i).length ≤ l.length := by
  induction l generalizing i with
  | nil => simp [List.eraseIdx]
  | cons a t ih =>
    cases i with
    | zero => simp [List.eraseIdx]
    | succ n =>
      simp only [List.eraseIdx, List.length_cons]
      exact Nat.succ_le_succ (ih n)

/-- No event ever resets `onloadCalled`: once true, it stays true. -/
theorem onload_mono (c : Config) (e : Event) (h : c.state.onloadCalled = true) :
    (step c e).state.onloadCalled = true := by
  cases e with
  | fire =>
    cases hE : entryStep c.env c.state with
    | mk s1 b =>
      have hoc : s1.onloadCalled = c.state.onloadCalled := by
        have h1 := entryStep_fst_onloadCalled c.env c.state
        rw [hE] at h1
        exact h1
      cases b with
      | true =>
        rw [step_fire_suspend c s1 hE]
        show s1.onloadCalled = true
        rw [hoc]
        exact h
      | false =>
        rw [step_fire_return c s1 hE]
        show s1.onloadCalled = true
        rw [hoc]
        exact h
  | tick i =>
    cases hF : c.flights[i]? with
    | none =>
      rw [step_tick_none c i hF]
      exact h
    | some f =>
      cases f with
      | awaiting ch =>
        rw [step_tick_awaiting c i ch hF]
        exact h
      | atTick =>
        cases hB : branchChoice c.env c.state with
        | noCall =>
          rw [step_tick_noCall c i hF hB]
          exact h
        | callOnload =>
          rw [step_tick_call c i EntryChoice.callOnload hF hB (by decide)]
          exact h
        | callOnrender =>
          rw [step_tick_call c i EntryChoice.callOnrender hF hB (by decide)]
          exact h
  | settle i ok =>
    cases hF : c.flights[i]? with
    | none =>
      rw [step_settle_none c i ok hF]
      exact h
    | some f =>
      cases f with
      | atTick =>
        rw [step_settle_atTick c i ok hF]
        exact h
      | awaiting ch =>
        rw [step_settle_awaiting c i ch ok hF]
        show (settleStep ch ok c.state).onloadCalled = true
        cases ch <;> cases ok <;> simp [settleStep, h]
  | setHtml hs => exact h
  | setSelfRef b => exact h
  | setOnload b => exact h
  | setOnrender b => exact h

/-- The only event that turns `onloadCalled` from false to true is the
successful settlement of an awaited `onload` call. -/
theorem onload_set_only (c : Config) (e : Event)
    (h : (step c e).state.onloadCalled = true) :
    c.state.onloadCalled = true ∨
      ∃ i, e = Event.settle i true ∧
        c.flights[i]? = some (InFlight.awaiting EntryChoice.callOnload) := by
  cases e with
  | fire =>
    cases hE : entryStep c.env c.state with
    | mk s1 b =>
      have hoc : s1.onloadCalled = c.state.onloadCalled := by
        have h1 := entryStep_fst_onloadCalled c.env c.state
        rw [hE] at h1
        exact h1
      cases b with
      | true =>
        rw [step_fire_suspend c s1 hE] at h
        have h2 : s1.onloadCalled = true := h
        left
        rw [← hoc]
        exact h2
      | false =>
        rw [step_fire_return c s1 hE] at h
        have h2 : s1.onloadCalled = true := h
        left
        rw [← hoc]
        exact h2
  | tick i =>
    cases hF : c.flights[i]? with
    | none =>
      rw [step_tick_none c i hF] at h
      exact Or.inl h
    | some f =>
      cases f with
      | awaiting ch =>
        rw [step_tick_awaiting c i ch hF] at h
        exact Or.inl h
      | atTick =>
        cases hB : branchChoice c.env c.state with
        | noCall =>
          rw [step_tick_noCall c i hF hB] at h
          exact Or.inl h
        | callOnload =>
          rw [step_tick_call c i EntryChoice.callOnload hF hB (by decide)] at h
          exact Or.inl h
        | callOnrender =>
          rw [step_tick_call c i EntryChoice.callOnrender hF hB (by decide)] at h
          exact Or.inl h
  | settle i ok =>
    cases hF : c.flights[i]? with
    | none =>
      rw [step_settle_none c i ok hF] at h
      exact Or.inl h
    | some f =>
      cases f with
      | atTick =>
        rw [step_settle_atTick c i ok hF] at h
        exact Or.inl h
      | awaiting ch =>
        rw [step_settle_awaiting c i ch ok hF] at h
        have h2 : (settleStep ch ok c.state).onloadCalled = true := h
        cases ch with
        | callOnload =>
          cases ok with
          | true => exact Or.inr ⟨i, rfl, hF⟩
          | false =>
            left
            rw [← settleStep_onloadCalled_of_error EntryChoice.callOnload c.state]
            exact h2
        | callOnrender => exact Or.inl h2
        | noCall => exact Or.inl h2
  | setHtml hs => exact Or.inl h
  | setSelfRef b => exact Or.inl h
  | setOnload b => exact Or.inl h
  | setOnrender b => exact Or.inl h

/-- An invocation arriving when the recorded content equals the current
content returns without changing anything (idempotence guard). -/
theorem fire_noop_of_sameContent (c : Config)
    (h : c.state.lastHtmlString = some c.env.htmlString) : step c Event.fire = c := by
  by_cases h1 : c.state.executeRenderInProgress = true
  · exact fire_noop_of_inProgress c h1
  · by_cases h2 : c.env.selfRefPresent = false ∨ c.env.htmlString = "" ∨
        c.env.onloadPresent = false
    · have hE : entryStep c.env c.state = (c.state, false) := by
        simp [entryStep, h1, h2]
      rw [step_fire_return c c.state hE]
    · have hE : entryStep c.env c.state = (c.state, false) := by
        simp [entryStep, h1, h2, h]
      rw [step_fire_return c c.state hE]

theorem tick_facts (c : Config) (i : Nat) :
    (step c (Event.tick i)).env = c.env ∧
    (step c (Event.tick i)).flights.length ≤ c.flights.length ∧
    (step c (Event.tick i)).state.lastHtmlString = c.state.lastHtmlString := by
  cases hF : c.flights[i]? with
  | none =>
    rw [step_tick_none c i hF]
    exact ⟨rfl, Nat.le_refl _, rfl⟩
  | some f =>
    cases f with
    | awaiting ch =>
      rw [step_tick_awaiting c i ch hF]
      exact ⟨rfl, Nat.le_refl _, rfl⟩
    | atTick =>
      cases hB : branchChoice c.env c.state with
      | noCall =>
        rw [step_tick_noCall c i hF hB]
        exact ⟨rfl, length_eraseIdx_le c.flights i, rfl⟩
      | callOnload =>
        rw [step_tick_call c i EntryChoice.callOnload hF hB (by decide)]
        refine ⟨rfl, ?_, rfl⟩
        simp [List.length_set]
      | callOnrender =>
        rw [step_tick_call c i EntryChoice.callOnrender hF hB (by decide)]
        refine ⟨rfl, ?_, rfl⟩
        simp [List.length_set]

theorem settle_facts (c : Config) (i : Nat) (ok : Bool) :
    (step c (Event.settle i ok)).env = c.env ∧
    (step c (Event.settle i ok)).flights.length ≤ c.flights.length ∧
    (step c (Event.settle i ok)).state.lastHtmlString = c.state.lastHtmlString := by
  cases hF : c.flights[i]? with
  | none =>
    rw [step_settle_none c i ok hF]
    exact ⟨rfl, Nat.le_refl _, rfl⟩
  | some f =>
    cases f with
    | atTick =>
      rw [step_settle_atTick c i ok hF]
      exact ⟨rfl, Nat.le_refl _, rfl⟩
    | awaiting ch =>
      rw [step_settle_awaiting c i ch ok hF]
      exact ⟨rfl, length_eraseIdx_le c.flights i,
        settleStep_lastHtmlString ch ok c.state⟩

/-- An environment in which every dependency of the render path is
available. -/
def readyEnv : Env :=
  { htmlString := "a", selfRefPresent := true, onloadPresent := true, onrenderPresent := true }

/-- A complete first render: fire, resume from nextTick (branching into
`onload`), successful settlement. -/
def initializedTrace : List Event :=
  [Event.fire, Event.tick 0, Event.settle 0 true]

/-- The configuration after a successful first full render. -/
def initializedConfig : Config := run (Config.init readyEnv) initializedTrace

/-- Claim C1: for every MountInstance, `onloadCalled` transitions
false to true only through a successfully completed `onload` call and
is never reset, and after the transition no invocation of
`executeRender` ever takes the `onload` path again: the post-tick
branch never selects `onload`, and no suspended invocation is awaiting
`onload`. -/
theorem spec_C1 : ∀ c : Config, Reachable c →
    (∀ e, c.state.onloadCalled = true → (step c e).state.onloadCalled = true) ∧
    (∀ e, (step c e).state.onloadCalled = true →
      c.state.onloadCalled = true ∨
        ∃ i, e = Event.settle i true ∧
          c.flights[i]? = some (InFlight.awaiting EntryChoice.callOnload)) ∧
    (c.state.onloadCalled = true →
      branchChoice c.env c.state ≠ EntryChoice.callOnload ∧
      ∀ f ∈ c.flights, f ≠ InFlight.awaiting EntryChoice.callOnload) := by
  intro c hR
  refine ⟨fun e h => onload_mono c e h, fun e h => onload_set_only c e h, fun h => ?_⟩
  exact ⟨branchChoice_of_onloadCalled c.env c.state h, (reachable_inv c hR).2.2 h⟩

/-- Witness for C1: the configuration reached by a complete successful
first render is reachable, has `onloadCalled = true`, and satisfies the
claim there. -/
theorem spec_C1_witness :
    (∀ e, initializedConfig.state.onloadCalled = true →
      (step initializedConfig e).state.onloadCalled = true) ∧
    (∀ e, (step initializedConfig e).state.onloadCalled = true →
      initializedConfig.state.onloadCalled = true ∨
        ∃ i, e = Event.settle i true ∧
          initializedConfig.flights[i]? =
            some (InFlight.awaiting EntryChoice.callOnload)) ∧
    (initializedConfig.state.onloadCalled = true →
      branchChoice initializedConfig.env initializedConfig.state ≠
        EntryChoice.callOnload ∧
      ∀ f ∈ initializedConfig.flights,
        f ≠ InFlight.awaiting EntryChoice.callOnload) :=
  spec_C1 initializedConfig ⟨readyEnv, initializedTrace, rfl⟩

/-- Claim C2: invoking `executeRender` with `htmlString` equal to the
recorded `lastHtmlString` changes nothing; `executeRenderInProgress`
and `lastHtmlString` are both set by the synchronous entry segment,
before the first suspension, so a re-entrant invocation while a render
is in flight is likewise a no-op. -/
theorem spec_C2 : ∀ c : Config,
    (c.state.lastHtmlString = some c.env.htmlString → step c Event.fire = c) ∧
    ((entryStep c.env c.state).2 = true →
      (entryStep c.env c.state).1.executeRenderInProgress = true ∧
      (entryStep c.env c.state).1.lastHtmlString = some c.env.htmlString) ∧
    (c.state.executeRenderInProgress = true → step c Event.fire = c) ∧
    ((entryStep c.env c.state).2 = true →
      step (step c Event.fire) Event.fire = step c Event.fire) := by
  intro c
  refine ⟨fun h => fire_noop_of_sameContent c h, fun h => ?_,
    fun h => fire_noop_of_inProgress c h, fun h => ?_⟩
  · obtain ⟨hip, hs⟩ := entryStep_snd_true c.env c.state h
    rw [hs]
    exact ⟨rfl, rfl⟩
  · obtain ⟨hip, hs⟩ := entryStep_snd_true c.env c.state h
    have hE : entryStep c.env c.state =
        ({ c.state with
            executeRenderInProgress := true,
            lastHtmlString := some c.env.htmlString }, true) := by
      cases hP : entryStep c.env c.state with
      | mk a b =>
        rw [hP] at h hs
        simp only at h hs
        rw [h, hs]
    rw [step_fire_suspend c _ hE]
    exact fire_noop_of_inProgress _ rfl

/-- Witness for C2: a configuration whose recorded content equals the
current content is left unchanged by a firing. -/
theorem spec_C2_witness :
    step (Config.mk readyEnv
      { onloadCalled := true, lastHtmlString := some "a",
        executeRenderInProgress := false } []) Event.fire =
    Config.mk readyEnv
      { onloadCalled := true, lastHtmlString := some "a",
        executeRenderInProgress := false } [] :=
  (spec_C2 (Config.mk readyEnv
    { onloadCalled := true, lastHtmlString := some "a",
      executeRenderInProgress := false } [])).1 rfl

/-- Claim C3: at most one render is in flight per MountInstance; a
firing while one is in flight changes nothing and queues nothing; the
in-progress flag is false whenever no invocation is suspended, and the
settlement segment (the finally clause) always clears it. -/
theorem spec_C3 : ∀ c : Config, Reachable c →
    c.flights.length ≤ 1 ∧
    (c.state.executeRenderInProgress = true → step c Event.fire = c) ∧
    (c.flights = [] → c.state.executeRenderInProgress = false) ∧
    ∀ ch ok s, (settleStep ch ok s).executeRenderInProgress = false := by
  intro c hR
  obtain ⟨hlen, hflag, _⟩ := reachable_inv c hR
  refine ⟨hlen, fun h => fire_noop_of_inProgress c h, fun h => ?_,
    fun ch ok s => settleStep_inProgress ch ok s⟩
  by_cases hip : c.state.executeRenderInProgress = true
  · exact absurd h (hflag.mp hip)
  · simpa using hip

/-- Witness for C3: in the mid-flight configuration reached by one
firing, a second firing is dropped without any effect. -/
theorem spec_C3_witness :
    step (run (Config.init readyEnv) [Event.fire]) Event.fire =
      run (Config.init readyEnv) [Event.fire] :=
  (spec_C3 (run (Config.init readyEnv) [Event.fire])
    ⟨readyEnv, [Event.fire], rfl⟩).2.1 rfl

/-- Claim C4: when the awaited entry point throws, the error is caught
(the step yields a well-defined successor configuration rather than
propagating), `executeRenderInProgress` is cleared whether the entry
point succeeded or failed, and a failure leaves `onloadCalled` and
`lastHtmlString` exactly as they were: a failed first initialization
leaves `onloadCalled = false`, a failed re-typeset leaves it true. -/
theorem spec_C4 : ∀ (c : Config) (i : Nat) (ch : EntryChoice) (ok : Bool),
    c.flights[i]? = some (InFlight.awaiting ch) →
    (step c (Event.settle i false)).state =
      { c.state with executeRenderInProgress := false } ∧
    (step c (Event.settle i ok)).state.executeRenderInProgress = false ∧
    (step c (Event.settle i false)).state.onloadCalled = c.state.onloadCalled ∧
    (step c (Event.settle i false)).state.lastHtmlString = c.state.lastHtmlString := by
  intro c i ch ok hF
  have h1 := step_settle_awaiting c i ch false hF
  have h2 := step_settle_awaiting c i ch ok hF
  rw [h1, h2]
  refine ⟨settleStep_of_error ch c.state, settleStep_inProgress ch ok c.state, ?_, ?_⟩
  · show (settleStep ch false c.state).onloadCalled = c.state.onloadCalled
    rw [settleStep_of_error ch c.state]
  · show (settleStep ch false c.state).lastHtmlString = c.state.lastHtmlString
    rw [settleStep_of_error ch c.state]

/-- Witness for C4: a failure of the awaited first `onload` call clears
the in-progress flag and leaves the rest of the state intact. -/
theorem spec_C4_witness :
    (step (run (Config.init readyEnv) [Event.fire, Event.tick 0])
      (Event.settle 0 false)).state =
    { (run (Config.init readyEnv) [Event.fire, Event.tick 0]).state with
      executeRenderInProgress := false } :=
  (spec_C4 (run (Config.init readyEnv) [Event.fire, Event.tick 0]) 0
    EntryChoice.callOnload true (by decide)).1

/-- Trace in which the content changes from "a" to "b" while the render
of "a" is in flight: the watcher firing for the change is dropped by the
in-progress guard, and the in-flight render then resumes and completes.
Each change of a watched source is immediately followed by the one
watcher invocation it schedules, so after the final event no further
invocation is pending. -/
def droppedChangeTrace : List Event :=
  [Event.fire, Event.setHtml "b", Event.fire, Event.tick 0, Event.settle 0 true]

/-- The quiescent configuration after `droppedChangeTrace`. -/
def droppedChangeConfig : Config := run (Config.init readyEnv) droppedChangeTrace

/-- Counterexample to claim C8 as stated: after the mid-flight change
of `htmlString` to "b", the dropped watcher firing is a strict no-op
(removing it from the trace yields the same configuration), and in the
final quiescent configuration (no invocation suspended, every scheduled
watcher invocation already ran) `lastHtmlString` is still "a" while the
current `htmlString` is "b" — the new value was never recorded, and no
event of the completion re-fires the watcher. -/
theorem counter_C8 :
    droppedChangeConfig.flights = [] ∧
    droppedChangeConfig.state.executeRenderInProgress = false ∧
    droppedChangeConfig.env.htmlString = "b" ∧
    droppedChangeConfig.state.lastHtmlString = some "a" ∧
    droppedChangeConfig.state.lastHtmlString ≠ some droppedChangeConfig.env.htmlString ∧
    run (Config.init readyEnv) [Event.fire, Event.setHtml "b", Event.fire] =
      run (Config.init readyEnv) [Event.fire, Event.setHtml "b"] := by
  refine ⟨rfl, rfl, rfl, rfl, by decide, rfl⟩

/-- Claim C8 as amended: a firing that arrives while a render is in
flight is dropped without any effect, and the resumption and settlement
events of the in-flight render neither change any watched reactive
source, nor create a new invocation, nor update `lastHtmlString` — so
nothing re-fires the watcher when the in-flight render completes, and
the dropped content value stays unrecorded until a watched source
changes again. -/
theorem spec_C8 : ∀ (c : Config) (i : Nat) (ok : Bool),
    (c.state.executeRenderInProgress = true → step c Event.fire = c) ∧
    (step c (Event.tick i)).env = c.env ∧
    (step c (Event.settle i ok)).env = c.env ∧
    (step c (Event.tick i)).flights.length ≤ c.flights.length ∧
    (step c (Event.settle i ok)).flights.length ≤ c.flights.length ∧
    (step c (Event.tick i)).state.lastHtmlString = c.state.lastHtmlString ∧
    (step c (Event.settle i ok)).state.lastHtmlString = c.state.lastHtmlString := by
  intro c i ok
  obtain ⟨ht1, ht2, ht3⟩ := tick_facts c i
  obtain ⟨hs1, hs2, hs3⟩ := settle_facts c i ok
  exact ⟨fun h => fire_noop_of_inProgress c h, ht1, hs1, ht2, hs2, ht3, hs3⟩

/-- Witness for C8 (amended): the dropped firing of
`droppedChangeTrace`, applied at its concrete mid-flight
configuration. -/
theorem spec_C8_witness :
    step (run (Config.init readyEnv) [Event.fire, Event.setHtml "b"]) Event.fire =
      run (Config.init readyEnv) [Event.fire, Event.setHtml "b"] :=
  (spec_C8 (run (Config.init readyEnv) [Event.fire, Event.setHtml "b"]) 0 true).1 rfl

/-- Claim C10: when `onloadCalled` is already true but `onrender` is
null, a firing with fresh content suspends and records the content; at
the resumption the branch selects no entry point at all, and the run
ends with the new content recorded and nothing typeset; afterwards,
whatever value `onrender` later takes, a firing with the same content
is a no-op, so that content is never typeset until `htmlString`
changes again. -/
theorem spec_C10 : ∀ (env : Env) (s : RenderState),
    s.onloadCalled = true →
    s.executeRenderInProgress = false →
    env.onrenderPresent = false →
    env.selfRefPresent = true →
    env.onloadPresent = true →
    env.htmlString ≠ "" →
    s.lastHtmlString ≠ some env.htmlString →
    step (Config.mk env s []) Event.fire =
      Config.mk env
        { s with
            executeRenderInProgress := true,
            lastHtmlString := some env.htmlString }
        [InFlight.atTick] ∧
    branchChoice env
      { s with
          executeRenderInProgress := true,
          lastHtmlString := some env.htmlString } = EntryChoice.noCall ∧
    step (step (Config.mk env s []) Event.fire) (Event.tick 0) =
      Config.mk env
        { s with
            executeRenderInProgress := false,
            lastHtmlString := some env.htmlString } [] ∧
    (∀ b : Bool,
      step (Config.mk { env with onrenderPresent := b }
        { s with
            executeRenderInProgress := false,
            lastHtmlString := some env.htmlString } []) Event.fire =
      Config.mk { env with onrenderPresent := b }
        { s with
            executeRenderInProgress := false,
            lastHtmlString := some env.htmlString } []) := by
  intro env s ho hip hnr hsr hol hne hlast
  have hE : entryStep env s =
      ({ s with
          executeRenderInProgress := true,
          lastHtmlString := some env.htmlString }, true) := by
    simp [entryStep, hip, hsr, hol, hne, hlast]
  have h1 : step (Config.mk env s []) Event.fire =
      Config.mk env
        { s with
            executeRenderInProgress := true,
            lastHtmlString := some env.htmlString }
        [InFlight.atTick] := by
    rw [step_fire_suspend (Config.mk env s []) _ hE]
    rfl
  have hB : branchChoice env
      { s with
          executeRenderInProgress := true,
          lastHtmlString := some env.htmlString } = EntryChoice.noCall := by
    simp [branchChoice, ho, hnr]
  refine ⟨h1, hB, ?_, fun b => ?_⟩
  · rw [h1]
    have hF0 : (Config.mk env
        { s with
            executeRenderInProgress := true,
            lastHtmlString := some env.htmlString }
        [InFlight.atTick]).flights[0]? = some InFlight.atTick := rfl
    rw [step_tick_noCall _ 0 hF0 hB]
    rfl
  · exact fire_noop_of_sameContent _ rfl

/-- Witness for C10: concrete instance with `onloadCalled` true,
`onrender` absent, and fresh content "x". -/
theorem spec_C10_witness :
    branchChoice
      { htmlString := "x", selfRefPresent := true, onloadPresent := true,
        onrenderPresent := false }
      { onloadCalled := true, lastHtmlString := some "x",
        executeRenderInProgress := true } = EntryChoice.noCall :=
  (spec_C10
    { htmlString := "x", selfRefPresent := true, onloadPresent := true,
      onrenderPresent := false }
    { onloadCalled := true, lastHtmlString := none,
      executeRenderInProgress := false }
    rfl rfl rfl rfl rfl (by decide) (by decide)).2.1

end ManuscriptWrapper

namespace HeadInjection

/-- The JS test `url.startsWith("/static/")`, written over the
character lists so that it evaluates on concrete inputs. -/
def isStaticPath (u : String) : Bool :=
  List.isPrefixOf "/static/".data u.data

/-- URL rewriting of the useHeadInjection composable: a path beginning
with the static-asset marker is resolved against the API base URL when
one is configured. -/
def rewriteUrl (apiBaseUrl : Option String) (u : String) : String :=
  match apiBaseUrl with
  | some base => if isStaticPath u then base ++ u else u
  | none => u

/-- State of the composable: the `loadedResources` set and, as the
observable effect, the list of URLs of the link and script elements
appended to `document.head`, in insertion order. -/
structure InjectState where
  loadedResources : List String
  injectedElements : List String
deriving DecidableEq, Repr

/-- The composable starts with an empty resource set and an untouched
document head. -/
def InjectState.init : InjectState :=
  { loadedResources := [], injectedElements := [] }

/-- Processing of one link or script descriptor, exactly as in the
source: the attribute must be non-null and non-empty, membership in
`loadedResources` is tested on the RAW attribute value, then the URL is
rewritten, the element with the REWRITTEN URL is appended to the head,
and the REWRITTEN URL is recorded in `loadedResources`. -/
def processResource (apiBaseUrl : Option String) (st : InjectState) (rawUrl : String) :
    InjectState :=
  if rawUrl ≠ "" ∧ rawUrl ∉ st.loadedResources then
    { loadedResources := st.loadedResources ++ [rewriteUrl apiBaseUrl rawUrl],
      injectedElements := st.injectedElements ++ [rewriteUrl apiBaseUrl rawUrl] }
  else st

/-- One `injectHeadContent` call over the resource URLs of a payload,
stylesheet links first then external scripts, in document order. -/
def injectHeadContent (apiBaseUrl : Option String) (st : InjectState)
    (payloadUrls : List String) : InjectState :=
  payloadUrls.foldl (processResource apiBaseUrl) st

/-- A sequence of `injectHeadContent` calls against one composable
instance (the `loadedResources` set persists across calls). -/
def injectSequence (apiBaseUrl : Option String) (payloads : List (List String)) :
    InjectState :=
  payloads.foldl (injectHeadContent apiBaseUrl) InjectState.init

/-- Claim C5 fails on the code: when the same relative static URL
recurs in a later payload, the membership test on the raw value misses
the recorded rewritten value, and the same resolved URL is appended to
the document head a second time.  The first call behaves as expected;
the second call re-injects. -/
theorem spec_C5 :
    (injectSequence (some "http://api") [["/static/a.css"]]).injectedElements =
      ["http://api/static/a.css"] ∧
    (injectSequence (some "http://api")
        [["/static/a.css"], ["/static/a.css"]]).injectedElements =
      ["http://api/static/a.css", "http://api/static/a.css"] ∧
    ((injectSequence (some "http://api")
        [["/static/a.css"], ["/static/a.css"]]).injectedElements.count
      "http://api/static/a.css") = 2 := by
  refine ⟨by decide, by decide, by decide⟩

end HeadInjection

namespace HeadScripts

/-- One declared external script of a payload: whether its load event
fires (`ok = true`) or its error event fires, and the instant at which
that happens. -/
structure ScriptLoad where
  ok : Bool
  settleTime : Nat
deriving DecidableEq, Repr

/-- The settle instants of the scripts whose error event fires. -/
def failureTimes (scripts : List ScriptLoad) : List Nat :=
  (scripts.filter (fun sc => !sc.ok)).map ScriptLoad.settleTime

/-- The instant at which the last script settles. -/
def lastSettleTime (scripts : List ScriptLoad) : Nat :=
  (scripts.map ScriptLoad.settleTime).foldl max 0

/-- The instant of the earliest failure, when there is one. -/
def firstFailureTime (scripts : List ScriptLoad) : Option Nat :=
  match failureTimes scripts with
  | [] => none
  | t :: ts => some (ts.foldl min t)

inductive PromiseOutcome
  | resolved (t : Nat)
  | rejected (t : Nat)
deriving DecidableEq, Repr

/-- `Promise.all` over the per-script promises: it rejects at the
instant of the first error event if any script fails, and otherwise
fulfills when the last load event has fired. -/
def promiseAllOutcome (scripts : List ScriptLoad) : PromiseOutcome :=
  match firstFailureTime scripts with
  | some t => PromiseOutcome.rejected t
  | none => PromiseOutcome.resolved (lastSettleTime scripts)

/-- The aggregate promise returned by `injectHeadContent`: the `then`
handler resolves it, and the `catch` handler logs and resolves it at
the same instant, so it never rejects. -/
def injectOutcome (scripts : List ScriptLoad) : PromiseOutcome :=
  match promiseAllOutcome scripts with
  | PromiseOutcome.resolved t => PromiseOutcome.resolved t
  | PromiseOutcome.rejected t => PromiseOutcome.resolved t

theorem init_le_foldl_max (l : List Nat) (a : Nat) : a ≤ l.foldl max a := by
  induction l generalizing a with
  | nil => exact Nat.le_refl a
  | cons b t ih => exact Nat.le_trans (Nat.le_max_left a b) (ih (max a b))

theorem le_foldl_max (l : List Nat) (a x : Nat) (hx : x ∈ l) : x ≤ l.foldl max a := by
  induction l generalizing a with
  | nil => cases hx
  | cons b t ih =>
    cases hx with
    | head => exact Nat.le_trans (Nat.le_max_right a x) (init_le_foldl_max t (max a x))
    | tail _ h => exact ih (max a b) h

/-- Counterexample to claim C6 as stated: with one script failing at
instant 1 and another still pending until instant 2, the aggregate
promise resolves at instant 1 — before the second declared script has
settled. -/
theorem counter_C6 :
    injectOutcome [⟨false, 1⟩, ⟨true, 2⟩] = PromiseOutcome.resolved 1 ∧
    (⟨true, 2⟩ : ScriptLoad) ∈ ([⟨false, 1⟩, ⟨true, 2⟩] : List ScriptLoad) ∧
    ¬ (2 ≤ 1) := by
  refine ⟨rfl, by decide, by decide⟩

/-- Claim C6 as amended: the aggregate promise never rejects; when
every declared script loads successfully it resolves at the instant the
last one has settled (so no script is still pending); but when some
script fails, it resolves already at the instant of the first failure,
possibly while other declared scripts are still pending. -/
theorem spec_C6 : ∀ scripts : List ScriptLoad,
    (∃ t, injectOutcome scripts = PromiseOutcome.resolved t) ∧
    ((∀ sc ∈ scripts, sc.ok = true) →
      injectOutcome scripts = PromiseOutcome.resolved (lastSettleTime scripts) ∧
      ∀ sc ∈ scripts, sc.settleTime ≤ lastSettleTime scripts) ∧
    (∀ t, firstFailureTime scripts = some t →
      injectOutcome scripts = PromiseOutcome.resolved t) := by
  intro scripts
  refine ⟨?_, fun h => ?_, fun t ht => ?_⟩
  · cases hf : firstFailureTime scripts with
    | none => exact ⟨lastSettleTime scripts, by simp [injectOutcome, promiseAllOutcome, hf]⟩
    | some t => exact ⟨t, by simp [injectOutcome, promiseAllOutcome, hf]⟩
  · have hfil : scripts.filter (fun sc => !sc.ok) = [] := by
      rw [List.filter_eq_nil_iff]
      intro a ha
      simp [h a ha]
    have hft : firstFailureTime scripts = none := by
      unfold firstFailureTime failureTimes
      rw [hfil]
      rfl
    refine ⟨by simp [injectOutcome, promiseAllOutcome, hft], fun sc hsc => ?_⟩
    exact le_foldl_max _ 0 sc.settleTime (List.mem_map_of_mem ScriptLoad.settleTime hsc)
  · simp [injectOutcome, promiseAllOutcome, ht]

/-- Witness for C6 (amended): two scripts that both load, settling at
instants 3 and 5; the aggregate resolves at 5, after both. -/
theorem spec_C6_witness :
    injectOutcome [⟨true, 3⟩, ⟨true, 5⟩] =
      PromiseOutcome.resolved (lastSettleTime [⟨true, 3⟩, ⟨true, 5⟩]) ∧
    ∀ sc ∈ ([⟨true, 3⟩, ⟨true, 5⟩] : List ScriptLoad),
      sc.settleTime ≤ lastSettleTime [⟨true, 3⟩, ⟨true, 5⟩] :=
  (spec_C6 [⟨true, 3⟩, ⟨true, 5⟩]).2.1 (by decide)

end HeadScripts

namespace WrapperKey

/-- The wrapper component as far as the `manuscriptKey` mechanism is
concerned: the key driving the keyed Manuscript child, the current
content, and the render state held in the wrapper itself
(`onloadCalled`, `lastHtmlString`, `executeRenderInProgress`). -/
structure WrapperState where
  manuscriptKey : Nat
  htmlString : String
  render : ManuscriptWrapper.RenderState
deriving DecidableEq, Repr

/-- The watcher of ManuscriptWrapper.vue lines 17-23: on every change
of `props.htmlString` it increments `manuscriptKey`, which destroys and
recreates the keyed Manuscript child.  The wrapper instance itself is
not recreated, so its render state is untouched. -/
def onHtmlStringChange (w : WrapperState) (newHtml : String) : WrapperState :=
  { w with htmlString := newHtml, manuscriptKey := w.manuscriptKey + 1 }

/-- Counterexample to claim C7 as stated: an in-place edit of an
already-initialized document increments `manuscriptKey` (the mount is
destroyed and recreated even though the change is not a full document
replacement), yet the render state is NOT reset to its initial values —
`onloadCalled` stays true and `lastHtmlString` keeps the old content,
so no fresh full-initialization pass runs for the recreated mount. -/
theorem counter_C7 :
    (onHtmlStringChange ⟨3, "doc v1", ⟨true, some "doc v1", false⟩⟩
      "doc v1 edited").manuscriptKey = 4 ∧
    (onHtmlStringChange ⟨3, "doc v1", ⟨true, some "doc v1", false⟩⟩
      "doc v1 edited").render = ⟨true, some "doc v1", false⟩ ∧
    (onHtmlStringChange ⟨3, "doc v1", ⟨true, some "doc v1", false⟩⟩
      "doc v1 edited").render ≠ ManuscriptWrapper.RenderState.init := by
  refine ⟨rfl, rfl, by decide⟩

/-- Claim C7 as amended: the keyed Manuscript mount is destroyed and
recreated on EVERY htmlString change, replacement and in-place edit
alike, and this recreation never resets the render state of the
wrapper, which persists for the wrapper lifetime. -/
theorem spec_C7 : ∀ (w : WrapperState) (newHtml : String),
    (onHtmlStringChange w newHtml).manuscriptKey = w.manuscriptKey + 1 ∧
    (onHtmlStringChange w newHtml).htmlString = newHtml ∧
    (onHtmlStringChange w newHtml).render = w.render := by
  intro w newHtml
  exact ⟨rfl, rfl, rfl⟩

end WrapperKey

namespace TooltipPreview

/-- Modelled from the spec: the tooltip preview renderer lives in the
backend-served static asset (`onload.js`), which is not present under
src/ — only its end-to-end tests are
(src/frontend/src/tests/e2e/tooltip-mathjax.spec.js).  Spec section 4.3:
`renderPreview(sourceElement)` clones the referenced element subtree
into a new detached fragment, invokes the typesetting engine
fragment-scoped operation strictly on that fragment, and the fragment
and its typeset output are removed entirely when the tooltip closes.
A region counts its raw (untypeset) math nodes, its rendered math
containers, and the rendered containers nested inside another. -/
structure Region where
  rawMath : Nat
  renderedMath : Nat
  nestedRendered : Nat
deriving DecidableEq, Repr

/-- Modelled from the spec: the fragment-scoped typeset operation turns
the raw math of its target region into rendered containers and nests
nothing. -/
def typesetFragment (r : Region) : Region :=
  { rawMath := 0, renderedMath := r.renderedMath + r.rawMath,
    nestedRendered := r.nestedRendered }

/-- The document: the persistent manuscript mount, and the ephemeral
detached tooltip fragment when one is open. -/
structure TooltipDoc where
  mount : Region
  tooltip : Option Region
deriving DecidableEq, Repr

/-- Modelled from the spec: triggering a tooltip clones the source
region into a detached fragment and typesets only the fragment. -/
def renderPreview (d : TooltipDoc) (source : Region) : TooltipDoc :=
  { d with tooltip := some (typesetFragment source) }

/-- Modelled from the spec: closing the tooltip removes the fragment
and its typeset output entirely. -/
def closeTooltip (d : TooltipDoc) : TooltipDoc :=
  { d with tooltip := none }

/-- Count of nested rendered containers anywhere in the document. -/
def docNested (d : TooltipDoc) : Nat :=
  d.mount.nestedRendered +
    (match d.tooltip with
     | some r => r.nestedRendered
     | none => 0)

/-- Claim C9: triggering a tooltip preview leaves the persistent mount
(and in particular its rendered math count) unchanged, closing it
restores the document exactly, and when the document had no nested
artifacts, none exist anywhere after the tooltip closes. -/
theorem spec_C9 : ∀ (d : TooltipDoc) (source : Region),
    (renderPreview d source).mount = d.mount ∧
    (renderPreview d source).mount.renderedMath = d.mount.renderedMath ∧
    closeTooltip (renderPreview d source) = { d with tooltip := none } ∧
    (d.mount.nestedRendered = 0 →
      docNested (closeTooltip (renderPreview d source)) = 0) := by
  intro d source
  refine ⟨rfl, rfl, rfl, fun h => ?_⟩
  simp [docNested, closeTooltip, renderPreview, h]

/-- Witness for C9: a mount with two rendered formulas and no nested
artifacts; after a tooltip over a one-formula source opens and closes,
no nested artifact exists. -/
theorem spec_C9_witness :
    docNested (closeTooltip (renderPreview
      { mount := { rawMath := 0, renderedMath := 2, nestedRendered := 0 },
        tooltip := none }
      { rawMath := 1, renderedMath := 0, nestedRendered := 0 })) = 0 :=
  (spec_C9
    { mount := { rawMath := 0, renderedMath := 2, nestedRendered := 0 },
      tooltip := none }
    { rawMath := 1, renderedMath := 0, nestedRendered := 0 }).2.2.2 rfl

end TooltipPreview
